import Mathlib

/-!
Shallow embedding of the `your_AI_study_agent` repository (Python) and
verification of the specification's claims about it.

Each definition mirrors one Python function of the repository; source
locations are given in the doc comments.  Machine-level details that are
external collaborators in the source (the OpenAI client, the FAISS C++
index, `json`, the filesystem) are abstracted as explicit parameters or
modelled by their documented contracts.
-/

namespace StudyAgent

/-! ## Tool policy — `src/core/orchestration/policies.py` -/

/-- Embedding of `ToolPolicy.MODE_POLICIES` (policies.py lines 8-12): the fixed
mode → allowed-tool-list table. -/
def MODE_POLICIES : List (String × List String) :=
  [("learn",    ["calculator", "websearch", "filewriter", "memory_search"]),
   ("practice", ["calculator", "filewriter", "memory_search"]),
   ("exam",     ["calculator"])]

/-- Embedding of `ToolPolicy.get_allowed_tools` (policies.py lines 14-17):
`MODE_POLICIES.get(mode, [])`. -/
def getAllowedTools (mode : String) : List String :=
  (MODE_POLICIES.lookup mode).getD []

/-! ## Pydantic `Plan` model — `src/backend/schemas.py` lines 28-34

`Plan` has `Literal`-typed fields; pydantic v2 rejects construction with a
value outside the literal set by raising a `ValidationError`.  We model
construction as an `Except`. -/

def validTaskTypes : List String := ["learn", "practice", "exam", "general"]

def validStyles : List String := ["step_by_step", "hint_first", "direct"]

def validOutputFormats : List String := ["answer", "quiz", "exam", "report"]

structure Plan where
  need_rag : Bool
  allowed_tools : List String
  task_type : String
  style : String
  output_format : String
deriving DecidableEq, Repr

/-- Embedding of `Plan(**kwargs)`: pydantic v2 validation of the `Literal` fields;
returns `Except.error` where Python raises `ValidationError`. -/
def mkPlan (need_rag : Bool) (allowed_tools : List String)
    (task_type style output_format : String) : Except String Plan :=
  if task_type ∈ validTaskTypes then
    if style ∈ validStyles then
      if output_format ∈ validOutputFormats then
        .ok ⟨need_rag, allowed_tools, task_type, style, output_format⟩
      else .error "ValidationError"
    else .error "ValidationError"
  else .error "ValidationError"

/-! ## Router agent — `src/core/agents/router.py` -/

/-- The fields of the dict the planning model's JSON reply may contribute to
`Plan(**plan_dict)` after `allowed_tools` and `task_type` are overridden
(router.py lines 46-53).  A `none` field is absent from the dict, so the
pydantic default applies. -/
structure PlanDict where
  need_rag : Option Bool
  style : Option String
  output_format : Option String
deriving DecidableEq, Repr

/-- Embedding of `RouterAgent.plan` (router.py lines 16-63).  The LLM call and the
JSON extraction/`json.loads` of its reply are external; their combined
outcome is the `parsed` parameter (`none` = extraction or JSON parsing
failed).  On any exception in the `try` block — parse failure or pydantic
`ValidationError` — the handler returns the default plan, whose own
construction can itself raise (and then propagates, uncaught). -/
def RouterAgent.plan (user_message mode course_name : String)
    (parsed : Option PlanDict) : Except String Plan :=
  let _ := user_message   -- feeds only the planning prompt
  let _ := course_name    -- feeds only the planning prompt
  let fallback : Except String Plan :=
    mkPlan true (getAllowedTools mode) mode "step_by_step" "answer"
  match parsed with
  | some d =>
      match mkPlan (d.need_rag.getD true) (getAllowedTools mode) mode
          (d.style.getD "step_by_step") (d.output_format.getD "answer") with
      | .ok p => .ok p
      | .error _ => fallback
  | none => fallback

/-- A successful pydantic `Plan` construction carries exactly the
`allowed_tools` it was given. -/
lemma mkPlan_ok_tools {nr : Bool} {ats : List String} {tt st of : String}
    {p : Plan} (h : mkPlan nr ats tt st of = Except.ok p) :
    p.allowed_tools = ats := by
  unfold mkPlan at h
  split_ifs at h
  cases h; rfl

/-- Construction of a `Plan` succeeds when every `Literal` field is valid. -/
lemma mkPlan_valid_ok (nr : Bool) (ats : List String) (tt st of : String)
    (h1 : tt ∈ validTaskTypes) (h2 : st ∈ validStyles)
    (h3 : of ∈ validOutputFormats) :
    mkPlan nr ats tt st of = .ok ⟨nr, ats, tt, st, of⟩ := by
  unfold mkPlan
  rw [if_pos h1, if_pos h2, if_pos h3]

/-- Whenever the mode is a valid `task_type` literal, `RouterAgent.plan`
succeeds (the fallback plan always validates) and the produced plan's
`allowed_tools` is the policy-table entry for the mode. -/
lemma routerAgent_plan_ok_of_valid_task
    (user_message mode course_name : String) (parsed : Option PlanDict)
    (htask : mode ∈ validTaskTypes) :
    ∃ p, RouterAgent.plan user_message mode course_name parsed = .ok p ∧
      p.allowed_tools = getAllowedTools mode := by
  have hfall : mkPlan true (getAllowedTools mode) mode "step_by_step" "answer" =
      .ok ⟨true, getAllowedTools mode, mode, "step_by_step", "answer"⟩ :=
    mkPlan_valid_ok _ _ _ _ _ htask (by decide) (by decide)
  cases parsed with
  | none =>
      exact ⟨_, by simpa [RouterAgent.plan] using hfall, rfl⟩
  | some d =>
      cases hm : mkPlan (d.need_rag.getD true) (getAllowedTools mode) mode
          (d.style.getD "step_by_step") (d.output_format.getD "answer") with
      | ok p =>
          exact ⟨p, by simp [RouterAgent.plan, hm], mkPlan_ok_tools hm⟩
      | error e =>
          exact ⟨_, by simpa [RouterAgent.plan, hm] using hfall, rfl⟩

/-- C1: for modes `learn`, `practice`, `exam`, `RouterAgent.plan` always
succeeds and its `allowed_tools` is exactly the policy table entry,
regardless of the model's parsed reply (including a failed JSON parse); in
exam mode `websearch` is never allowed. -/
theorem routerAgent_plan_allowed_tools_policy
    (user_message mode course_name : String) (parsed : Option PlanDict)
    (hmode : mode = "learn" ∨ mode = "practice" ∨ mode = "exam") :
    ∃ p, RouterAgent.plan user_message mode course_name parsed = .ok p ∧
      p.allowed_tools = getAllowedTools mode ∧
      (mode = "exam" → "websearch" ∉ p.allowed_tools) := by
  have htask : mode ∈ validTaskTypes := by
    rcases hmode with h | h | h <;> simp [h, validTaskTypes]
  obtain ⟨p, hp, ht⟩ :=
    routerAgent_plan_ok_of_valid_task user_message mode course_name parsed htask
  refine ⟨p, hp, ht, ?_⟩
  rintro rfl
  rw [ht]
  decide

/-- Witness for C1: in exam mode with an unparseable model reply, the plan
is produced and allows exactly `["calculator"]`, with no `websearch`. -/
theorem routerAgent_plan_allowed_tools_policy_witness :
    ∃ p, RouterAgent.plan "做题" "exam" "线性代数" none = .ok p ∧
      p.allowed_tools = getAllowedTools "exam" ∧
      ("exam" = "exam" → "websearch" ∉ p.allowed_tools) :=
  routerAgent_plan_allowed_tools_policy "做题" "exam" "线性代数" none
    (Or.inr (Or.inr rfl))

/-! ## Chat data model — `src/backend/schemas.py` -/

/-- Embedding of `RetrievedChunk` (schemas.py lines 19-25).  The `score : float` field
is modelled over `ℚ`. -/
structure RetrievedChunk where
  text : String
  doc_id : String
  page : Option Int
  chunk_id : Option String
  score : ℚ
deriving DecidableEq, Repr

/-- Embedding of `ChatMessage` (schemas.py lines 63-68).  The entries of a tool-call
trace are never inspected by the runner, so they are modelled as opaque
strings. -/
structure ChatMessage where
  role : String
  content : String
  citations : Option (List RetrievedChunk)
  tool_calls : Option (List String)
deriving DecidableEq, Repr

/-! ## Orchestration entry point — `src/core/orchestration/runner.py` -/

/-- Embedding of `OrchestrationRunner.run` (runner.py lines 428-457).  The three mode
handlers (`run_learn_mode`, `run_practice_mode`, `run_exam_mode`) are
passed as parameters; each yields its response message together with the
list of `(relative path, content)` record files it writes.  The dispatch
itself writes nothing.  An exception raised by `RouterAgent.plan`
propagates (`Except.error`). -/
def OrchestrationRunner.run (course_name mode user_message : String)
    (parsed : Option PlanDict)
    (learnHandler practiceHandler examHandler :
      Plan → ChatMessage × List (String × String)) :
    Except String (ChatMessage × Plan × List (String × String)) :=
  match RouterAgent.plan user_message mode course_name parsed with
  | .error e => .error e
  | .ok plan =>
      if mode = "learn" then
        let r := learnHandler plan
        .ok (r.1, plan, r.2)
      else if mode = "practice" then
        let r := practiceHandler plan
        .ok (r.1, plan, r.2)
      else if mode = "exam" then
        let r := examHandler plan
        .ok (r.1, plan, r.2)
      else
        .ok (⟨"assistant", "未知模式: " ++ mode, none, none⟩, plan, [])

/-- A trivial mode handler used only to instantiate the counterexample. -/
def nullHandler : Plan → ChatMessage × List (String × String) :=
  fun _ => (⟨"assistant", "", none, none⟩, [])

/-- Counterexample to C10 as stated: for the mode `"chat"` (outside
`{learn, practice, exam}` and outside `Plan.task_type`'s literal set),
`run` does not return the `未知模式` message at all — the fallback
`Plan` construction inside `RouterAgent.plan` raises a pydantic
`ValidationError`, which propagates out of `run`. -/
theorem run_unknown_mode_counterexample :
    OrchestrationRunner.run "线性代数" "chat" "你好" none
      nullHandler nullHandler nullHandler = .error "ValidationError" := by
  rfl

/-- C10 (amended): the only mode outside `{learn, practice, exam}` for
which `Plan` validation succeeds is `"general"`; for it, `run` invokes no
mode handler (the result is independent of all three handlers), writes no
record file, and returns the assistant message `"未知模式: general"`
(citations and tool_calls `none`) paired with a plan whose
`allowed_tools` is empty.  Every other unknown mode makes `run` propagate
the `ValidationError` raised by the fallback plan construction. -/
theorem run_general_mode_unknown_message (course_name user_message : String)
    (parsed : Option PlanDict)
    (learnHandler practiceHandler examHandler :
      Plan → ChatMessage × List (String × String)) :
    ∃ plan,
      OrchestrationRunner.run course_name "general" user_message parsed
          learnHandler practiceHandler examHandler =
        .ok (⟨"assistant", "未知模式: general", none, none⟩, plan, []) ∧
      plan.allowed_tools = [] := by
  obtain ⟨p, hp, ht⟩ := routerAgent_plan_ok_of_valid_task user_message "general"
    course_name parsed (by decide)
  refine ⟨p, ?_, by rw [ht]; rfl⟩
  simp [OrchestrationRunner.run, hp]

/-! ## Practice grading detection and record saving —
`src/core/orchestration/runner.py` -/

/-- Python's substring test `sub in text` on strings. -/
def strContains (text sub : String) : Bool :=
  decide (sub.data <:+: text.data)

/-- The fixed keyword set of `_is_practice_grading` (runner.py line 324). -/
def practiceGradingKeywords : List String :=
  ["评分结果", "标准解析", "易错提醒", "得分", "答对的部分", "需要改进"]

/-- Embedding of `OrchestrationRunner._is_practice_grading` (runner.py lines 322-325):
`sum(1 for kw in keywords if kw in text) >= 2`. -/
def isPracticeGrading (text : String) : Bool :=
  decide (2 ≤ practiceGradingKeywords.countP (fun kw => strContains text kw))

/-- One entry of the caller-supplied chat history (a Python dict with
`role` and `content` keys; `dict.get` defaults are already folded in). -/
structure HistMsg where
  role : String
  content : String
deriving DecidableEq, Repr

/-- The question-extraction scan of `_save_practice_record` (runner.py
lines 346-350): the most recent assistant message among the last 20
history entries. -/
def lastAssistantContent (history : List HistMsg) : Option String :=
  ((history.reverse.take 20).find? (fun m => m.role == "assistant")).map
    (fun m => m.content)

/-- Python's `s or default` for an optional string (`None` and the empty
string are both falsy). -/
def pyOrString (s : Option String) (dflt : String) : String :=
  match s with
  | some c => if c.isEmpty then dflt else c
  | none => dflt

/-- Embedding of `OrchestrationRunner._save_practice_record` (runner.py lines 332-377):
returns the saved relative path and the markdown file content.  The file
is written at `practices/练习记录_<timestamp>.md`; `timestamp` and
`datetime_str` stand for the two `datetime.now()` renderings. -/
def savePracticeRecord (course_name user_message : String)
    (history : List HistMsg) (response_text timestamp datetime_str : String) :
    String × String :=
  let quiz_content := lastAssistantContent history
  let md :=
    "# 练习记录\n\n**时间**：" ++ datetime_str ++ "\n**课程**：" ++ course_name ++
    "\n\n---\n\n## 题目\n\n" ++ pyOrString quiz_content "（未能提取题目内容）" ++
    "\n\n---\n\n" ++ "## 我的答案\n\n" ++ user_message ++ "\n" ++
    "\n---\n\n## 评分与详细解析\n\n" ++ response_text ++ "\n"
  ("practices/" ++ ("练习记录_" ++ timestamp ++ ".md"), md)

/-- Embedding of `OrchestrationRunner.run_practice_mode` (runner.py lines 95-147),
after the LLM produced `response_text`; retrieval is abstracted into the
`citations` argument.  The second component is the record file written,
as a `(relative path, content)` pair (`none` = nothing saved). -/
def runPracticeMode (course_name user_message : String)
    (history : List HistMsg) (citations : Option (List RetrievedChunk))
    (response_text timestamp datetime_str : String) :
    ChatMessage × Option (String × String) :=
  if isPracticeGrading response_text then
    let saved := savePracticeRecord course_name user_message history
      response_text timestamp datetime_str
    (⟨"assistant",
      response_text ++ "\n\n---\n📁 **本题记录已保存至**：`" ++ saved.1 ++ "`",
      citations, none⟩,
     some saved)
  else
    (⟨"assistant", response_text, citations, none⟩, none)

/-- C2: in practice mode, a response containing at least 2 of the fixed
grading keywords makes the runner write `practices/练习记录_<timestamp>.md`
whose answer section contains the submitted message verbatim; a response
containing exactly 1 keyword saves nothing. -/
theorem practice_record_saved_iff_grading
    (course_name user_message timestamp datetime_str response_text : String)
    (history : List HistMsg) (citations : Option (List RetrievedChunk)) :
    (2 ≤ practiceGradingKeywords.countP (fun kw => strContains response_text kw) →
      ∃ content,
        (runPracticeMode course_name user_message history citations
            response_text timestamp datetime_str).2 =
          some ("practices/" ++ ("练习记录_" ++ timestamp ++ ".md"), content) ∧
        ("## 我的答案\n\n" ++ user_message ++ "\n").data <:+: content.data) ∧
    (practiceGradingKeywords.countP (fun kw => strContains response_text kw) = 1 →
      (runPracticeMode course_name user_message history citations
          response_text timestamp datetime_str).2 = none) := by
  constructor
  · intro h2
    have hg : isPracticeGrading response_text = true := by
      simpa [isPracticeGrading] using h2
    refine ⟨(savePracticeRecord course_name user_message history
      response_text timestamp datetime_str).2, ?_, ?_⟩
    · simp [runPracticeMode, hg, savePracticeRecord]
    · refine ⟨("# 练习记录\n\n**时间**：" ++ datetime_str ++ "\n**课程**：" ++
        course_name ++ "\n\n---\n\n## 题目\n\n" ++
        pyOrString (lastAssistantContent history) "（未能提取题目内容）" ++
        "\n\n---\n\n").data,
        ("\n---\n\n## 评分与详细解析\n\n" ++ response_text ++ "\n").data, ?_⟩
      simp only [savePracticeRecord, String.data_append, List.append_assoc]
  · intro h1
    have hg : isPracticeGrading response_text = false := by
      simp [isPracticeGrading, h1]
    simp [runPracticeMode, hg]

/-- Witness for C2: a concrete grading reply with exactly 2 keywords
(`评分结果`, `得分`) triggers the save with the answer embedded, and a
reply with exactly 1 keyword (`标准解析`) saves nothing. -/
theorem practice_record_saved_iff_grading_witness :
    (∃ content,
      (runPracticeMode "线性代数" "答案是2" [] none
          "评分结果：你的得分是 85 分" "20240101_120000" "2024-01-01 12:00:00").2 =
        some ("practices/" ++ ("练习记录_" ++ "20240101_120000" ++ ".md"), content) ∧
      ("## 我的答案\n\n" ++ "答案是2" ++ "\n").data <:+: content.data) ∧
    (runPracticeMode "线性代数" "答案是2" [] none
        "请看标准解析。" "20240101_120000" "2024-01-01 12:00:00").2 = none := by
  constructor
  · exact (practice_record_saved_iff_grading "线性代数" "答案是2" "20240101_120000"
      "2024-01-01 12:00:00" "评分结果：你的得分是 85 分" [] none).1 (by decide)
  · exact (practice_record_saved_iff_grading "线性代数" "答案是2" "20240101_120000"
      "2024-01-01 12:00:00" "请看标准解析。" [] none).2 (by decide)

/-! ## LLM gateway tool-calling loop — `src/core/llm/openai_compat.py`

The OpenAI transport is an external collaborator: it is modelled as an
oracle from the current message list (and whether tool schemas are
attached) to either a model message or a raised exception.  `json.loads`
of a tool call's argument string and the tool registry
(`MCPTools.call_tool` composed with `json.dumps`) are likewise external
and appear as the `jsonParse` and `toolExec` parameters. -/

/-- One requested tool call of a model response. -/
structure ToolCallReq where
  id : String
  name : String
  arguments : String
deriving DecidableEq, Repr

/-- A chat-completion response message; `tool_calls = []` models Python's
falsy `None`/empty list. -/
structure ModelMessage where
  content : Option String
  tool_calls : List ToolCallReq
deriving DecidableEq, Repr

/-- A conversation turn as assembled by `chat_with_tools`. -/
inductive Msg where
  | system (content : String)
  | user (content : String)
  | assistant (content : Option String) (tool_calls : List ToolCallReq)
  | tool (tool_call_id : String) (content : String)
deriving DecidableEq, Repr

/-- The chat-completion endpoint: messages and a with-tools flag to a
response, or a raised exception (`Except.error`). -/
abbrev Oracle := List Msg → Bool → Except String ModelMessage

/-- Embedding of `LLMClient.chat` (openai_compat.py lines 29-47): one request without
tools; any exception is caught and turned into an error string. -/
def LLMClient.chat (oracle : Oracle) (messages : List Msg) : Option String :=
  match oracle messages false with
  | .ok m => m.content
  | .error e => some ("Error calling LLM: " ++ e)

/-- Instrumentation record of one executed tool call: the tool name, the
raw argument string the model supplied, and the argument set actually
passed to the registry. -/
structure ExecEntry where
  name : String
  argString : String
  argsUsed : List (String × String)
deriving DecidableEq, Repr

/-- The `for round_idx in range(max_rounds)` loop of `chat_with_tools`
(openai_compat.py lines 70-130), by remaining fuel.  `fuel = 0` is the
over-cap branch (lines 122-130): one forced request without tools.
A raised exception carries the local `messages` (read by the `except`
handler) and the ghost trace.  The success value is
`(returned content, tool rounds done, non-tool requests made, trace)`. -/
def chatWithToolsGo (oracle : Oracle)
    (jsonParse : String → Option (List (String × String)))
    (toolExec : String → List (String × String) → String) :
    Nat → List Msg → Nat → List ExecEntry →
    Except (List Msg × List ExecEntry) (String × Nat × Nat × List ExecEntry)
  | 0, messages, rounds, trace =>
      match oracle messages false with
      | .error _ => .error (messages, trace)
      | .ok m => .ok (m.content.getD "", rounds, 1, trace)
  | fuel + 1, messages, rounds, trace =>
      match oracle messages true with
      | .error _ => .error (messages, trace)
      | .ok m =>
          if m.tool_calls = [] then .ok (m.content.getD "", rounds, 0, trace)
          else
            let toolMsgs := m.tool_calls.map (fun tc =>
              Msg.tool tc.id (toolExec tc.name ((jsonParse tc.arguments).getD [])))
            let entries := m.tool_calls.map (fun tc =>
              ExecEntry.mk tc.name tc.arguments ((jsonParse tc.arguments).getD []))
            chatWithToolsGo oracle jsonParse toolExec fuel
              (messages ++ Msg.assistant m.content m.tool_calls :: toolMsgs)
              (rounds + 1) (trace ++ entries)

/-- The value returned by `chat_with_tools`, with ghost instrumentation
(round counters and executed-call trace). -/
structure ToolLoopResult where
  result : Option String
  toolRounds : Nat
  finalRequests : Nat
  execTrace : List ExecEntry
deriving DecidableEq, Repr

/-- Embedding of `LLMClient.chat_with_tools` (openai_compat.py lines 49-134):
`max_rounds = 6`; empty `tools` short-circuits to `chat`; any exception
in the loop degrades to a plain `chat` on the messages accumulated so
far. -/
def LLMClient.chatWithTools (oracle : Oracle)
    (jsonParse : String → Option (List (String × String)))
    (toolExec : String → List (String × String) → String)
    (messages : List Msg) (tools : List String) : ToolLoopResult :=
  if tools = [] then
    ⟨LLMClient.chat oracle messages, 0, 0, []⟩
  else
    match chatWithToolsGo oracle jsonParse toolExec 6 messages 0 [] with
    | .ok (c, r, f, tr) => ⟨some c, r, f, tr⟩
    | .error (ms, tr) => ⟨LLMClient.chat oracle ms, 0, 0, tr⟩

/-- If the model requests a tool on every round, the loop consumes all of
its fuel, adding one tool round per unit, and ends in the forced non-tool
request. -/
lemma chatWithToolsGo_always_tools (oracle : Oracle)
    (jsonParse : String → Option (List (String × String)))
    (toolExec : String → List (String × String) → String)
    (hmodel : ∀ ms, ∃ m, oracle ms true = .ok m ∧ m.tool_calls ≠ [])
    (hfinal : ∀ ms, ∃ m, oracle ms false = .ok m) :
    ∀ fuel messages rounds trace, ∃ finalMsgs m trace',
      oracle finalMsgs false = .ok m ∧
      chatWithToolsGo oracle jsonParse toolExec fuel messages rounds trace =
        .ok (m.content.getD "", rounds + fuel, 1, trace') := by
  intro fuel
  induction fuel with
  | zero =>
      intro messages rounds trace
      obtain ⟨m, hm⟩ := hfinal messages
      exact ⟨messages, m, trace, hm, by simp [chatWithToolsGo, hm]⟩
  | succ fuel ih =>
      intro messages rounds trace
      obtain ⟨m, hm, hne⟩ := hmodel messages
      obtain ⟨fm, m', tr, hfm, hgo⟩ := ih
        (messages ++ Msg.assistant m.content m.tool_calls ::
          m.tool_calls.map (fun tc =>
            Msg.tool tc.id (toolExec tc.name ((jsonParse tc.arguments).getD []))))
        (rounds + 1)
        (trace ++ m.tool_calls.map (fun tc =>
          ExecEntry.mk tc.name tc.arguments ((jsonParse tc.arguments).getD [])))
      refine ⟨fm, m', tr, hfm, ?_⟩
      have harith : rounds + 1 + fuel = rounds + (fuel + 1) := by omega
      rw [chatWithToolsGo, hm]
      simp only [hne, if_false, reduceIte]
      rw [hgo, harith]

/-- C3: with a non-empty tool schema set and a model that requests at
least one tool call on every round, `chat_with_tools` performs exactly 6
tool-calling rounds, then issues exactly one final request without tools
and returns that response's content — it never loops indefinitely. -/
theorem chat_with_tools_round_cap (oracle : Oracle)
    (jsonParse : String → Option (List (String × String)))
    (toolExec : String → List (String × String) → String)
    (messages : List Msg) (tools : List String)
    (htools : tools ≠ [])
    (hmodel : ∀ ms, ∃ m, oracle ms true = .ok m ∧ m.tool_calls ≠ [])
    (hfinal : ∀ ms, ∃ m, oracle ms false = .ok m) :
    ∃ finalMsgs m trace,
      oracle finalMsgs false = .ok m ∧
      LLMClient.chatWithTools oracle jsonParse toolExec messages tools =
        ⟨some (m.content.getD ""), 6, 1, trace⟩ := by
  obtain ⟨fm, m, tr, hfm, hgo⟩ :=
    chatWithToolsGo_always_tools oracle jsonParse toolExec hmodel hfinal 6 messages 0 []
  exact ⟨fm, m, tr, hfm, by simp [LLMClient.chatWithTools, htools, hgo]⟩

/-- A model that always requests one `calculator` call while tools are
attached, used to instantiate the cap theorem. -/
def constToolOracle : Oracle := fun _ withTools =>
  .ok ⟨some "最终答案", if withTools then [⟨"call_1", "calculator", "1+1"⟩] else []⟩

/-- Witness for C3 at a concrete always-requesting model. -/
theorem chat_with_tools_round_cap_witness :
    ∃ finalMsgs m trace,
      constToolOracle finalMsgs false = .ok m ∧
      LLMClient.chatWithTools constToolOracle (fun _ => none) (fun _ _ => "2")
          [Msg.user "1+1=?"] ["calculator"] =
        ⟨some (m.content.getD ""), 6, 1, trace⟩ :=
  chat_with_tools_round_cap constToolOracle (fun _ => none) (fun _ _ => "2")
    [Msg.user "1+1=?"] ["calculator"] (by simp)
    (fun ms => ⟨⟨some "最终答案", [⟨"call_1", "calculator", "1+1"⟩]⟩, rfl, by simp⟩)
    (fun ms => ⟨⟨some "最终答案", []⟩, rfl⟩)

/-- Every entry the loop ever records uses exactly the arguments produced
by `json.loads`-with-empty-fallback on the model's argument string. -/
lemma chatWithToolsGo_trace_args (oracle : Oracle)
    (jsonParse : String → Option (List (String × String)))
    (toolExec : String → List (String × String) → String) :
    ∀ fuel messages rounds trace,
      (∀ e ∈ trace, e.argsUsed = (jsonParse e.argString).getD []) →
      (∀ c r f tr, chatWithToolsGo oracle jsonParse toolExec fuel messages rounds trace =
          .ok (c, r, f, tr) → ∀ e ∈ tr, e.argsUsed = (jsonParse e.argString).getD []) ∧
      (∀ ms tr, chatWithToolsGo oracle jsonParse toolExec fuel messages rounds trace =
          .error (ms, tr) → ∀ e ∈ tr, e.argsUsed = (jsonParse e.argString).getD []) := by
  intro fuel
  induction fuel with
  | zero =>
      intro messages rounds trace hinv
      constructor
      · intro c r f tr hok
        rw [chatWithToolsGo] at hok
        cases h : oracle messages false with
        | error e => rw [h] at hok; exact absurd hok (by simp)
        | ok m => rw [h] at hok; simp at hok; obtain ⟨-, -, -, rfl⟩ := hok; exact hinv
      · intro ms tr herr
        rw [chatWithToolsGo] at herr
        cases h : oracle messages false with
        | error e => rw [h] at herr; simp at herr; obtain ⟨-, rfl⟩ := herr; exact hinv
        | ok m => rw [h] at herr; exact absurd herr (by simp)
  | succ fuel ih =>
      intro messages rounds trace hinv
      have hinv' : ∀ m : ModelMessage,
          ∀ e ∈ trace ++ m.tool_calls.map (fun tc =>
            ExecEntry.mk tc.name tc.arguments ((jsonParse tc.arguments).getD [])),
          e.argsUsed = (jsonParse e.argString).getD [] := by
        intro m e he
        rcases List.mem_append.mp he with h | h
        · exact hinv e h
        · obtain ⟨tc, -, rfl⟩ := List.mem_map.mp h
          rfl
      constructor
      · intro c r f tr hok
        rw [chatWithToolsGo] at hok
        cases h : oracle messages true with
        | error e => rw [h] at hok; exact absurd hok (by simp)
        | ok m =>
            rw [h] at hok
            dsimp only at hok
            by_cases hne : m.tool_calls = []
            · rw [if_pos hne] at hok
              simp at hok; obtain ⟨-, -, -, rfl⟩ := hok; exact hinv
            · rw [if_neg hne] at hok
              exact (ih _ _ _ (hinv' m)).1 c r f tr hok
      · intro ms tr herr
        rw [chatWithToolsGo] at herr
        cases h : oracle messages true with
        | error e => rw [h] at herr; simp at herr; obtain ⟨-, rfl⟩ := herr; exact hinv
        | ok m =>
            rw [h] at herr
            dsimp only at herr
            by_cases hne : m.tool_calls = []
            · rw [if_pos hne] at herr; exact absurd herr (by simp)
            · rw [if_neg hne] at herr
              exact (ih _ _ _ (hinv' m)).2 ms tr herr

/-- C4: a requested tool call whose argument string fails JSON parsing is
executed with the empty argument set, and an exception raised anywhere in
the loop is caught: the call degrades to a plain non-tool completion on
the messages accumulated at the failure point, so `chat_with_tools`
always returns a value. -/
theorem chat_with_tools_error_resilience (oracle : Oracle)
    (jsonParse : String → Option (List (String × String)))
    (toolExec : String → List (String × String) → String)
    (messages : List Msg) (tools : List String) :
    (∀ e ∈ (LLMClient.chatWithTools oracle jsonParse toolExec messages
        tools).execTrace,
      jsonParse e.argString = none → e.argsUsed = []) ∧
    (tools ≠ [] → ∀ errMsgs trace,
      chatWithToolsGo oracle jsonParse toolExec 6 messages 0 [] =
        .error (errMsgs, trace) →
      (LLMClient.chatWithTools oracle jsonParse toolExec messages
        tools).result = LLMClient.chat oracle errMsgs) := by
  constructor
  · intro e he hpe
    by_cases ht : tools = []
    · simp [LLMClient.chatWithTools, ht] at he
    · have hargs : e.argsUsed = (jsonParse e.argString).getD [] := by
        rw [LLMClient.chatWithTools, if_neg ht] at he
        cases hgo : chatWithToolsGo oracle jsonParse toolExec 6 messages 0 [] with
        | ok v =>
            obtain ⟨c, r, f, tr⟩ := v
            rw [hgo] at he
            exact (chatWithToolsGo_trace_args oracle jsonParse toolExec 6 messages 0 []
              (by simp)).1 c r f tr hgo e he
        | error v =>
            obtain ⟨ms, tr⟩ := v
            rw [hgo] at he
            exact (chatWithToolsGo_trace_args oracle jsonParse toolExec 6 messages 0 []
              (by simp)).2 ms tr hgo e he
      rw [hargs, hpe]
      rfl
  · intro ht errMsgs trace hgo
    simp [LLMClient.chatWithTools, ht, hgo]

/-- A transport that serves one good round (a `calculator` call with a
non-JSON argument string) and then raises. -/
def flakyOracle : Oracle := fun ms withTools =>
  if 1 < ms.length then .error "APIConnectionError"
  else .ok ⟨some "hi", if withTools then [⟨"call_1", "calculator", "not json"⟩] else []⟩

/-- Witness for C4: on the flaky transport the executed call used the
empty argument set, and the turn still returns a value — the degraded
plain completion (which itself degrades into the inline error string). -/
theorem chat_with_tools_error_resilience_witness :
    (∀ e ∈ (LLMClient.chatWithTools flakyOracle (fun _ => none) (fun _ _ => "ok")
        [Msg.user "算一下"] ["calculator"]).execTrace,
      (fun _ => (none : Option (List (String × String)))) e.argString = none →
        e.argsUsed = []) ∧
    (LLMClient.chatWithTools flakyOracle (fun _ => none) (fun _ _ => "ok")
        [Msg.user "算一下"] ["calculator"]).result =
      some ("Error calling LLM: " ++ "APIConnectionError") := by
  have h := chat_with_tools_error_resilience flakyOracle (fun _ => none)
    (fun _ _ => "ok") [Msg.user "算一下"] ["calculator"]
  refine ⟨h.1, ?_⟩
  have h2 := h.2 (by simp)
    [Msg.user "算一下",
     Msg.assistant (some "hi") [⟨"call_1", "calculator", "not json"⟩],
     Msg.tool "call_1" "ok"]
    [⟨"calculator", "not json", []⟩] (by rfl)
  rw [h2]
  rfl

/-! ## Character chunking — `src/rag/chunk.py`

Python strings are sequences of unicode code points; text is embedded as
`List Char` and the int configuration values as `Int`. -/

/-- Truthiness of `chunk.strip()`: the chunk has a non-whitespace
character. -/
def pyStripTruthy (s : List Char) : Bool :=
  s.any (fun c => !c.isWhitespace)

/-- The `chunk_size` normalization of `simple_chunk_text` (chunk.py lines
13-14): a non-positive size becomes 512. -/
def csNorm (chunk_size : Int) : Int :=
  if chunk_size ≤ 0 then 512 else chunk_size

/-- The overlap clamp of `simple_chunk_text` (chunk.py lines 15-16):
`overlap >= chunk_size` becomes `chunk_size // 2`. -/
def ovNorm (chunk_size overlap : Int) : Int :=
  if overlap ≥ csNorm chunk_size then csNorm chunk_size / 2 else overlap

lemma csNorm_pos (chunk_size : Int) : 0 < csNorm chunk_size := by
  unfold csNorm; split_ifs <;> omega

lemma ovNorm_lt (chunk_size overlap : Int) :
    ovNorm chunk_size overlap < csNorm chunk_size := by
  have := csNorm_pos chunk_size
  unfold ovNorm; split_ifs <;> omega

/-- The `while start < text_len` loop of `simple_chunk_text` (chunk.py
lines 22-30), keeping each iteration's `(start, text[start:end])` pair.
`start + cs - ov ≤ start` is the extra safety branch of line 28 (dead
after the clamp, but kept).  The hypotheses record the clamp already
performed by the caller and make the loop's forward progress provable. -/
def simpleChunkGo (text : List Char) (cs ov : Int)
    (hcs : 0 < cs) (hov : ov < cs) (start : Int) : List (Int × List Char) :=
  if _h : start < (text.length : Int) then
    (start, (text.drop start.toNat).take cs.toNat) ::
      simpleChunkGo text cs ov hcs hov
        (if start + cs - ov ≤ start then start + cs else start + cs - ov)
  else []
termination_by ((text.length : Int) - start).toNat
decreasing_by
  simp_wf
  split_ifs <;> omega

/-- Embedding of `simple_chunk_text` (chunk.py lines 6-32). -/
def simple_chunk_text (text : List Char) (chunk_size overlap : Int) :
    List (List Char) :=
  ((simpleChunkGo text (csNorm chunk_size) (ovNorm chunk_size overlap)
      (csNorm_pos chunk_size) (ovNorm_lt chunk_size overlap) 0).filter
    (fun p => pyStripTruthy p.2)).map Prod.snd

/-- The sequence of values taken by the loop variable `start` during
`simple_chunk_text`. -/
def chunkStarts (text : List Char) (chunk_size overlap : Int) : List Int :=
  (simpleChunkGo text (csNorm chunk_size) (ovNorm chunk_size overlap)
    (csNorm_pos chunk_size) (ovNorm_lt chunk_size overlap) 0).map Prod.fst

lemma simpleChunkGo_fst_ge (text : List Char) (cs ov : Int)
    (hcs : 0 < cs) (hov : ov < cs) :
    ∀ start, ∀ p ∈ simpleChunkGo text cs ov hcs hov start, start ≤ p.1 := by
  intro start
  induction start using simpleChunkGo.induct text cs ov hcs hov with
  | case1 start h ih =>
      intro p hp
      rw [simpleChunkGo, dif_pos h] at hp
      rcases List.mem_cons.mp hp with rfl | hp'
      · rfl
      · have hnext : start <
            (if start + cs - ov ≤ start then start + cs else start + cs - ov) := by
          split_ifs <;> omega
        exact le_of_lt (lt_of_lt_of_le hnext (ih p hp'))
  | case2 start h =>
      intro p hp
      rw [simpleChunkGo, dif_neg h] at hp
      exact absurd hp (List.not_mem_nil p)

lemma simpleChunkGo_starts_chain (text : List Char) (cs ov : Int)
    (hcs : 0 < cs) (hov : ov < cs) :
    ∀ start, List.Chain' (· < ·)
      ((simpleChunkGo text cs ov hcs hov start).map Prod.fst) := by
  intro start
  induction start using simpleChunkGo.induct text cs ov hcs hov with
  | case1 start h ih =>
      rw [simpleChunkGo, dif_pos h]
      rw [List.map_cons]
      refine List.chain'_cons'.mpr ⟨?_, ih⟩
      intro y hy
      have hmem := List.mem_of_mem_head? hy
      obtain ⟨p, hp, rfl⟩ := List.mem_map.mp hmem
      have hnext : start <
          (if start + cs - ov ≤ start then start + cs else start + cs - ov) := by
        split_ifs <;> omega
      exact lt_of_lt_of_le hnext (simpleChunkGo_fst_ge text cs ov hcs hov _ p hp)
  | case2 start h =>
      rw [simpleChunkGo, dif_neg h]
      exact List.chain'_nil

lemma simpleChunkGo_length_le (text : List Char) (cs ov : Int)
    (hcs : 0 < cs) (hov : ov < cs) :
    ∀ start, (simpleChunkGo text cs ov hcs hov start).length ≤
      ((text.length : Int) - start).toNat := by
  intro start
  induction start using simpleChunkGo.induct text cs ov hcs hov with
  | case1 start h ih =>
      rw [simpleChunkGo, dif_pos h]
      rw [List.length_cons]
      have hnext : start <
          (if start + cs - ov ≤ start then start + cs else start + cs - ov) := by
        split_ifs <;> omega
      simp only [dite_eq_ite] at ih ⊢
      omega
  | case2 start h =>
      rw [simpleChunkGo, dif_neg h]
      simp

/-- C5: for every text and every `chunk_size`/`overlap` configuration,
the chunking loop makes strict forward progress — the successive window
start indices strictly increase — because the effective overlap is
clamped strictly below the effective chunk size; consequently the loop
runs at most `text.length` iterations (it terminates; the function is
total). -/
theorem simple_chunk_text_forward_progress
    (text : List Char) (chunk_size overlap : Int) :
    List.Chain' (· < ·) (chunkStarts text chunk_size overlap) ∧
    ovNorm chunk_size overlap < csNorm chunk_size ∧
    (chunkStarts text chunk_size overlap).length ≤ text.length := by
  refine ⟨simpleChunkGo_starts_chain text _ _ _ _ 0,
    ovNorm_lt chunk_size overlap, ?_⟩
  have h := simpleChunkGo_length_le text (csNorm chunk_size)
    (ovNorm chunk_size overlap) (csNorm_pos chunk_size)
    (ovNorm_lt chunk_size overlap) 0
  rw [chunkStarts, List.length_map]
  omega

/-! ## FAISS vector store — `src/rag/store_faiss.py`

The FAISS index is an external black box; its documented contract is
that `faiss.write_index`/`faiss.read_index` round-trip the stored vector
rows, as `pickle.dump`/`pickle.load` round-trip the chunk list.  Vector
entries (`float32`) are modelled over `ℚ`. -/

/-- One chunk-metadata record as produced by `chunk_documents`
(chunk.py lines 55-61) and stored in `FAISSStore.chunks`. -/
structure ChunkRec where
  text : String
  doc_id : String
  page : Option Int
  chunk_id : Option String
deriving DecidableEq, Repr

/-- An on-disk artifact: the serialized index (its vector rows) or the
pickled chunk list. -/
inductive Artifact where
  | faissIndex (rows : List (List ℚ))
  | pklChunks (chunks : List ChunkRec)
deriving DecidableEq

/-- Embedding of `FAISSStore` (store_faiss.py lines 15-21): the `IndexFlatL2` content
as its ordered vector rows, plus the parallel chunk list. -/
structure FAISSStore where
  dimension : Nat
  rows : List (List ℚ)
  chunks : List ChunkRec
deriving DecidableEq

/-- Embedding of `FAISSStore.add_chunks` (store_faiss.py lines 23-26). -/
def FAISSStore.add_chunks (st : FAISSStore) (chunks : List ChunkRec)
    (embeddings : List (List ℚ)) : FAISSStore :=
  { st with rows := st.rows ++ embeddings, chunks := st.chunks ++ chunks }

/-- Embedding of `FAISSStore.save` (store_faiss.py lines 42-58): writes
`<path>.faiss` (via `faiss.write_index`) and `<path>.pkl` (via
`pickle.dump`) into the filesystem, modelled as an association list with
newest entry first. -/
def FAISSStore.save (st : FAISSStore) (path : String)
    (fs : List (String × Artifact)) : List (String × Artifact) :=
  (path ++ ".pkl", .pklChunks st.chunks) ::
    (path ++ ".faiss", .faissIndex st.rows) :: fs

/-- Embedding of `FAISSStore.load` (store_faiss.py lines 60-73): reads both artifacts
back; `none` models the exception when a file is missing or of the wrong
shape. -/
def FAISSStore.load (st : FAISSStore) (path : String)
    (fs : List (String × Artifact)) : Option FAISSStore :=
  match List.lookup (path ++ ".faiss") fs with
  | some (.faissIndex rows) =>
      match List.lookup (path ++ ".pkl") fs with
      | some (.pklChunks chunks) => some { st with rows := rows, chunks := chunks }
      | _ => none
  | _ => none

lemma append_ne_of_suffix_ne {a b : String} (path : String)
    (h : a.data ≠ b.data) : path ++ a ≠ path ++ b := by
  intro hab
  have hd := congrArg String.data hab
  rw [String.data_append, String.data_append] at hd
  exact h (List.append_cancel_left hd)

/-- C6: saving a store and loading the same path restores the chunk list
with identical count and order, and the row `i` ↔ `chunks[i]`
correspondence survives the round trip. -/
theorem faiss_save_load_roundtrip (st st₀ : FAISSStore) (path : String)
    (fs : List (String × Artifact)) :
    ∃ st', FAISSStore.load st₀ path (FAISSStore.save st path fs) = some st' ∧
      st'.chunks = st.chunks ∧ st'.rows = st.rows ∧
      ∀ i, st'.rows.get? i = st.rows.get? i ∧
        st'.chunks.get? i = st.chunks.get? i := by
  have hne : path ++ ".faiss" ≠ path ++ ".pkl" := by
    apply append_ne_of_suffix_ne
    decide
  refine ⟨{ st₀ with rows := st.rows, chunks := st.chunks }, ?_, rfl, rfl,
    fun i => ⟨rfl, rfl⟩⟩
  have h1 : ((path ++ ".faiss") == (path ++ ".pkl")) = false :=
    beq_eq_false_iff_ne.mpr hne
  simp [FAISSStore.load, FAISSStore.save, List.lookup_cons, h1]

/-- Python list indexing `l[i]` for an `int` index: non-negative indices
are positional, negative indices count from the end, anything out of
range raises `IndexError` (`none`). -/
def pyListGet {α : Type} (l : List α) (i : Int) : Option α :=
  if 0 ≤ i then l.get? i.toNat
  else if (-i).toNat ≤ l.length then l.get? (l.length - (-i).toNat)
  else none

/-- The result-collection loop of `FAISSStore.search` (store_faiss.py
lines 33-38): `for i, idx in enumerate(indices[0]): if idx <
len(self.chunks): results.append((self.chunks[idx], 1/(1+distances[0][i])))`.
`none` models an `IndexError` escaping the loop. -/
def searchGo (chunks : List ChunkRec) :
    List (Int × ℚ) → Option (List (ChunkRec × ℚ))
  | [] => some []
  | (idx, dist) :: rest =>
      if idx < (chunks.length : Int) then
        match pyListGet chunks idx with
        | some c => (searchGo chunks rest).map (fun rs => (c, 1 / (1 + dist)) :: rs)
        | none => none
      else searchGo chunks rest

/-- Embedding of `FAISSStore.search` (store_faiss.py lines 28-40), given the index
row `indices[0]` and distance row `distances[0]` returned by the
external `faiss` nearest-neighbour query. -/
def FAISSStore.search (st : FAISSStore) (indices : List Int)
    (distances : List ℚ) : Option (List (ChunkRec × ℚ)) :=
  searchGo st.chunks (indices.zip distances)

/-- The single stored chunk of the C9 failing input. -/
def demoChunk : ChunkRec := ⟨"矩阵的秩的定义", "讲义.pdf", some 1, some "讲义.pdf_p1_c0"⟩

/-- C9 evaluated at the failing input: with one stored chunk and
`top_k = 2`, FAISS pads its reply with the placeholder index `-1`
(`indices = [0, -1]`); the guard `idx < len(self.chunks)` passes for
`-1`, and Python's negative indexing maps it to the *last* stored chunk,
so `search` returns 2 results instead of `min(top_k, 1) = 1` — the
second being a spurious duplicate of the last chunk. -/
theorem faiss_search_padding_maps_to_last_chunk :
    FAISSStore.search ⟨384, [[0]], [demoChunk]⟩ [0, -1] [0, 0] =
      some [(demoChunk, 1), (demoChunk, 1)] ∧
    min 2 [demoChunk].length = 1 := by
  constructor
  · show searchGo [demoChunk] [(0, 0), (-1, 0)] = _
    norm_num [searchGo, pyListGet]
  · rfl

/-! ## Context formatting — `src/rag/retrieve.py` -/

/-- Truthiness of `chunk.page` in Python: `None` and `0` are falsy. -/
def pageTruthy : Option Int → Bool
  | some p => p != 0
  | none => false

/-- The f-string rendering of `chunk.page` (only reached when truthy). -/
def pageStr : Option Int → String
  | some p => toString p
  | none => "None"

/-- The citation header built by `Retriever.format_context`
(retrieve.py lines 44-47) for the chunk at 0-based position `i`. -/
def citationOf (i : Nat) (c : RetrievedChunk) : String :=
  let citation := "[来源" ++ toString (i + 1) ++ ": " ++ c.doc_id
  let citation := if pageTruthy c.page then
      citation ++ ", 第" ++ pageStr c.page ++ "页"
    else citation
  citation ++ "]"

/-- Embedding of `Retriever.format_context` (retrieve.py lines 40-51). -/
def format_context (chunks : List RetrievedChunk) : String :=
  String.intercalate "\n"
    (chunks.enum.map (fun ic => citationOf ic.1 ic.2 ++ "\n" ++ ic.2.text ++ "\n"))

/-- The rendering exactly as the spec's words describe it: a 1-based
citation index per chunk in input order, annotated with the document id
and with the page *whenever the chunk has one*, followed by the chunk
text. -/
def format_context_specSide (chunks : List RetrievedChunk) : String :=
  String.intercalate "\n"
    (chunks.enum.map (fun ic =>
      "[来源" ++ toString (ic.1 + 1) ++ ": " ++ ic.2.doc_id ++
        (match ic.2.page with
         | some p => ", 第" ++ toString p ++ "页"
         | none => "") ++ "]" ++ "\n" ++ ic.2.text ++ "\n"))

/-- The spec-side rendering amended by Python truthiness: the page
annotation appears only when the chunk has a *nonzero* page. -/
def format_context_amendedSide (chunks : List RetrievedChunk) : String :=
  String.intercalate "\n"
    (chunks.enum.map (fun ic =>
      "[来源" ++ toString (ic.1 + 1) ++ ": " ++ ic.2.doc_id ++
        (match ic.2.page with
         | some p => if p ≠ 0 then ", 第" ++ toString p ++ "页" else ""
         | none => "") ++ "]" ++ "\n" ++ ic.2.text ++ "\n"))

/-- A retrieved chunk whose page is `0` — `Optional[int]` admits it, and
Python treats it as falsy. -/
def pageZeroChunk : RetrievedChunk := ⟨"绪论内容", "课件.pdf", some 0, none, 1⟩

/-- Counterexample to C7 as stated: for a chunk that has a page equal to
`0`, the code omits the page annotation (the truthiness test
`if chunk.page:` fails), so the rendering differs from the spec's
"annotate when the chunk has a page". -/
theorem format_context_page_zero_counterexample :
    format_context [pageZeroChunk] ≠ format_context_specSide [pageZeroChunk] := by
  decide

/-- C7 (amended): `format_context` is deterministic and renders the
chunks in input order, the `i`-th (1-based) as a citation header carrying
the index `i` and the chunk's document id — with the page annotation
appended exactly when the chunk has a nonzero page — followed by the
chunk's text. -/
theorem format_context_matches_amended_spec (chunks : List RetrievedChunk) :
    format_context chunks = format_context_amendedSide chunks := by
  unfold format_context format_context_amendedSide
  congr 1
  apply List.map_congr_left
  intro ic _
  apply congrArg (fun s => s ++ "\n" ++ ic.2.text ++ "\n")
  unfold citationOf pageTruthy
  cases hpage : ic.2.page with
  | none => simp
  | some p =>
      by_cases hp : p = 0
      · simp [hp, pageStr]
      · simp [hp, pageStr, String.append_assoc]

/-! ## Profile update — `src/memory/manager.py` -/

/-- The per-(user, course) profile row (`memory/store.py` schema), with
the `REAL` average over `ℚ`. -/
structure Profile where
  weak_points : List String
  preferred_style : String
  total_qa : Nat
  total_practice : Nat
  avg_score : ℚ
deriving DecidableEq, Repr

/-- Round-half-to-even on `ℚ`, the tie rule of Python's `round`. -/
def roundHalfEven (x : ℚ) : ℤ :=
  if x - ⌊x⌋ < 1 / 2 then ⌊x⌋
  else if 1 / 2 < x - ⌊x⌋ then ⌊x⌋ + 1
  else if ⌊x⌋ % 2 = 0 then ⌊x⌋ else ⌊x⌋ + 1

/-- Python's `round(x, 1)`: round to one decimal place. -/
def pyRound1 (x : ℚ) : ℚ :=
  (roundHalfEven (10 * x) : ℚ) / 10

/-- Embedding of `MemoryManager.record_practice_result` (manager.py lines 146-159):
increments the practice counter and stores `round(new_avg, 1)` of the
recomputed rolling average via `upsert_profile`. -/
def record_practice_result (p : Profile) (score : ℚ) : Profile :=
  let total := p.total_practice + 1
  let new_avg := (p.avg_score * ((total : ℚ) - 1) + score) / (total : ℚ)
  { p with total_practice := total, avg_score := pyRound1 new_avg }

/-- A profile with two recorded practices and average 0. -/
def demoProfile : Profile := ⟨["矩阵求逆"], "step_by_step", 0, 2, 0⟩

lemma roundHalfEven_abs_le (x : ℚ) : |(roundHalfEven x : ℚ) - x| ≤ 1 / 2 := by
  have h0 : (0 : ℚ) ≤ x - ⌊x⌋ := by
    have := Int.floor_le x; linarith
  have h1 : x - ⌊x⌋ < 1 := by
    have := Int.lt_floor_add_one x; linarith
  unfold roundHalfEven
  split_ifs with ha hb hc
  · rw [abs_le]; constructor <;> linarith
  · rw [abs_le]; push_cast; constructor <;> linarith
  · rw [abs_le]; constructor <;> linarith
  · rw [abs_le]; push_cast; constructor <;> linarith

lemma pyRound1_abs_le (y : ℚ) : |pyRound1 y - y| ≤ 1 / 20 := by
  have h := roundHalfEven_abs_le (10 * y)
  rw [pyRound1]
  have hdiv : (roundHalfEven (10 * y) : ℚ) / 10 - y =
      ((roundHalfEven (10 * y) : ℚ) - 10 * y) / 10 := by ring
  rw [hdiv, abs_div]
  have h10 : |(10 : ℚ)| = 10 := by norm_num
  rw [h10]
  linarith

/-- Counterexample to C8 as stated: with two practices recorded at
average 0 and a new score of 1 the exact rolling average is `1/3`, but
the stored value is `round(1/3, 1) = 3/10`. -/
theorem record_practice_result_rounding_counterexample :
    (record_practice_result demoProfile 1).avg_score ≠
      (demoProfile.avg_score * ((3 : ℚ) - 1) + 1) / 3 := by
  have h3 : ⌊(10 : ℚ) / 3⌋ = 3 := by
    rw [Int.floor_eq_iff]
    norm_num
  norm_num [record_practice_result, demoProfile, pyRound1, roundHalfEven, h3]

/-- C8 (amended): `record_practice_result` increments the stored practice
count by 1 and stores the rolling average `(old_avg*(n-1)+new_score)/n`
*rounded to one decimal place* (so it is within `1/20` of the exact
average). -/
theorem record_practice_result_amended (p : Profile) (score : ℚ) :
    (record_practice_result p score).total_practice = p.total_practice + 1 ∧
    (record_practice_result p score).avg_score =
      pyRound1 ((p.avg_score * (((p.total_practice + 1 : ℕ) : ℚ) - 1) + score) /
        ((p.total_practice + 1 : ℕ) : ℚ)) ∧
    |(record_practice_result p score).avg_score -
      (p.avg_score * (((p.total_practice + 1 : ℕ) : ℚ) - 1) + score) /
        ((p.total_practice + 1 : ℕ) : ℚ)| ≤ 1 / 20 := by
  refine ⟨rfl, rfl, ?_⟩
  exact pyRound1_abs_le _

end StudyAgent
